import Mathlib

/- Shallow embedding of the arena allocator and dynamic array of core.h
   (faintforge/hoard).

   Modelling conventions:
   * `size_t` / `uintptr_t` values are modelled as `Nat`; the claims are
     stated at the abstraction level of the spec, where the arithmetic does
     not wrap.
   * Byte-addressed process memory is modelled as a function from addresses
     to byte values (`Store`); the only function of the embedded slice that
     writes through pointers is `_arena_realloc` (its `memcpy`), so it is the
     only one that threads a `Store`.
   * A C pointer is modelled as its address (a `Nat`); `NULL` results are
     modelled with `Option`.
   * The fatal `core_assert` / `core_assert_msg` contract checks of the
     dynamic array are modelled with `Except String`, carrying the assertion
     message of the source. The arena's only assertion is the power-of-two
     check in `_align_up`; the arena theorems hypothesise a power-of-two
     alignment (under which that assertion passes), and `_is_power_of_two`
     is embedded so this can be stated. -/

namespace Hoard

/-- Byte-addressed memory, written by the modelled `memcpy`. -/
def Store : Type := Nat → Nat

/-- C `memcpy`: copy `n` bytes from address `src` to address `dst`. -/
def memcpy (mem : Store) (dst src n : Nat) : Store :=
  fun i => if dst ≤ i ∧ i < dst + n then mem (src + (i - dst)) else mem i

/-- `sizeof(arena_t)` on the x86-64 model: `allocator_t` is four pointers
(32 bytes), plus `memory` (8) and three `size_t` fields (24). -/
def sizeof_arena_t : Nat := 64

/-- `sizeof(void*)` on the x86-64 model: the default push alignment. -/
def sizeof_void_ptr : Nat := 8

/-- `arena_t`: the backing `allocator` capability is external state with no
bearing on the embedded operations and is omitted; `memory` is the base
address of the backing buffer. -/
structure arena_t where
  memory : Nat
  capacity : Nat
  position : Nat
  last_position : Nat
deriving DecidableEq

/-- `arena_create`: `memory` is the address returned by the backing
allocator's `alloc`; the header is embedded at the start of the block, so
both offsets start at `sizeof(arena_t)`. -/
def arena_create (memory capacity : Nat) : arena_t :=
  { memory := memory
    capacity := capacity
    position := sizeof_arena_t
    last_position := sizeof_arena_t }

/-- `_is_power_of_two(value)`: `(value & (value - 1)) == 0`. -/
def _is_power_of_two (value : Nat) : Bool :=
  value &&& (value - 1) == 0

/-- `_align_up(value, align)`; the source `core_assert`s that `align` is a
power of two before this computation. -/
def _align_up (value : Nat) (align : Nat) : Nat :=
  let mod := value &&& (align - 1)
  if mod ≠ 0 then value + (align - mod) else value

/-- `arena_push_aligned`: on success returns the updated arena and the
address `&arena->memory[position]`; on capacity overflow returns `NULL`
(`none`) with the arena untouched. -/
def arena_push_aligned (a : arena_t) (size align : Nat) : arena_t × Option Nat :=
  let current_ptr := a.memory + a.position
  let aligned_ptr := _align_up current_ptr align
  let position := aligned_ptr - a.memory
  if position + size > a.capacity then
    (a, none)
  else
    ({ a with last_position := position, position := position + size },
     some (a.memory + position))

/-- `arena_push`: push with the default `sizeof(void*)` alignment. -/
def arena_push (a : arena_t) (size : Nat) : arena_t × Option Nat :=
  arena_push_aligned a size sizeof_void_ptr

/-- `arena_reset`: rewind both offsets to just past the embedded header. -/
def arena_reset (a : arena_t) : arena_t :=
  { a with position := sizeof_arena_t, last_position := sizeof_arena_t }

/-- `arena_scope_t`: the snapshot taken by `arena_scope_begin`. The `arena`
pointer field of the source struct is the identity of the arena being
threaded explicitly here, so only the two saved offsets are modelled. -/
structure arena_scope_t where
  position : Nat
  last_position : Nat
deriving DecidableEq

/-- `arena_scope_begin`: snapshot the current offsets. -/
def arena_scope_begin (a : arena_t) : arena_scope_t :=
  { position := a.position, last_position := a.last_position }

/-- `arena_scope_end`: restore the snapshot into the arena (the source also
zeroes the scope struct, which has no observable effect on the arena). -/
def arena_scope_end (s : arena_scope_t) (a : arena_t) : arena_t :=
  { a with position := s.position, last_position := s.last_position }

/-- `_arena_alloc`: the allocator adapter's `alloc` is `arena_push`. -/
def _arena_alloc (a : arena_t) (size : Nat) : arena_t × Option Nat :=
  arena_push a size

/-- `_arena_realloc`: the allocator adapter's `realloc`. If `old_size >=
new_size` the pointer is returned unchanged; otherwise, if `ptr` is the most
recent allocation, `position` is rewound to `last_position` before a fresh
push of `new_size`, and the original `old_size` bytes are `memcpy`ed to the
new block. When the push fails the source passes `NULL` to `memcpy`, which
is undefined behaviour; that branch is modelled as returning `none` with the
store unwritten. -/
def _arena_realloc (mem : Store) (a : arena_t) (ptr old_size new_size : Nat) :
    Store × arena_t × Option Nat :=
  if old_size ≥ new_size then
    (mem, a, some ptr)
  else
    let a1 := if a.memory + a.last_position = ptr
      then { a with position := a.last_position } else a
    match arena_push a1 new_size with
    | (a2, some new_ptr) => (memcpy mem new_ptr ptr old_size, a2, some new_ptr)
    | (a2, none) => (mem, a2, none)

/-- `_arena_free`: the allocator adapter's `free` is a no-op. -/
def _arena_free (a : arena_t) : arena_t :=
  a

/-- A sequence of `arena_push_aligned` calls, each given as a
(size, align) request; the returned pointers are discarded. -/
def arena_push_seq (a : arena_t) (ops : List (Nat × Nat)) : arena_t :=
  ops.foldl (fun acc op => (arena_push_aligned acc op.1 op.2).1) a

/-- `_DYN_ARR_INITIAL_SIZE`: the capacity a dynamic array is created with. -/
def _DYN_ARR_INITIAL_SIZE : Nat := 8

/-- `_dyn_arr_header_t`: the header stored in front of the element storage.
`data` is the live prefix of the storage (the source's `length` is
`data.length`); the dead bytes between `length` and `capacity` are never
read by the embedded operations and are not modelled. `element_size` is
carried for fidelity: every byte offset of the source is a multiple of it,
so the byte-range `memmove`/`memcpy` calls act on whole elements and are
modelled as list splicing over the element type `α`. The `allocator`
capability is external state and is omitted; the source's null-handle
assertions cannot fire on a value of this type, which models a non-null
handle. -/
structure _dyn_arr_header_t (α : Type) where
  element_size : Nat
  capacity : Nat
  data : List α
deriving DecidableEq

/-- `dyn_arr_create`: a fresh array with capacity `_DYN_ARR_INITIAL_SIZE`
and length 0. -/
def dyn_arr_create (α : Type) (element_size : Nat) : _dyn_arr_header_t α :=
  { element_size := element_size
    capacity := _DYN_ARR_INITIAL_SIZE
    data := [] }

/-- `dyn_arr_length`. -/
def dyn_arr_length {α : Type} (h : _dyn_arr_header_t α) : Nat :=
  h.data.length

/-- The `while (new_capacity < header->length + length) new_capacity *= 2;`
loop of `_dyn_arr_ensure_capacity`, which computes the byte size passed to
the reallocation. The source keeps this value in the local `new_capacity`
only and never stores it into `header->capacity` (see claim C7). The source
loop never terminates when `capacity = 0` (unreachable: the field is only
ever written at creation, as 8), so the model returns `capacity` unchanged
on that junk input to stay total. -/
def _grow_capacity (capacity needed : Nat) : Nat :=
  if capacity < needed ∧ 0 < capacity then _grow_capacity (capacity * 2) needed
  else capacity
termination_by needed - capacity
decreasing_by omega

/-- `_dyn_arr_ensure_capacity`: when the stored capacity does not cover
`length + extra` elements, the source computes the doubled size
`_grow_capacity capacity (length + extra)` into a local and reallocates the
block from `prev_capacity` to that many elements' bytes — but it never
writes the grown size back into `header->capacity`, and the reallocation
preserves the block's leading bytes (header and live prefix), so no field
of the header record changes on either path. -/
def _dyn_arr_ensure_capacity {α : Type} (h : _dyn_arr_header_t α)
    (length : Nat) : _dyn_arr_header_t α :=
  if h.capacity ≥ h.data.length + length then h
  else h

/-- `dyn_arr_insert_arr`: shift `[index, length)` right by `arr.length`
slots and write `arr` into the gap. The `arr == NULL` zero-fill branch of
the source is not modelled; the claims pass a non-null source array. The
`index <= length` bound is the source's fatal assertion. -/
def dyn_arr_insert_arr {α : Type} (h : _dyn_arr_header_t α) (index : Nat)
    (arr : List α) : Except String (_dyn_arr_header_t α) :=
  if index ≤ h.data.length then
    let h1 := _dyn_arr_ensure_capacity h arr.length
    .ok { h1 with data := h1.data.take index ++ arr ++ h1.data.drop index }
  else .error "Index out of bounds"

/-- `dyn_arr_remove_arr`: optionally copy the removed range to the output
(modelled as always returning it), then shift `[index+count, length)` left
by `count` slots. The two bounds are the source's fatal assertions, checked
in source order. -/
def dyn_arr_remove_arr {α : Type} (h : _dyn_arr_header_t α) (index count : Nat) :
    Except String (_dyn_arr_header_t α × List α) :=
  if index < h.data.length then
    if index + count ≤ h.data.length then
      .ok ({ h with data := h.data.take index ++ h.data.drop (index + count) },
           (h.data.drop index).take count)
    else .error "Index out of bounds"
  else .error "Index out of bounds"

/-- `dyn_arr_insert`: single-element `dyn_arr_insert_arr`. -/
def dyn_arr_insert {α : Type} (h : _dyn_arr_header_t α) (index : Nat)
    (value : α) : Except String (_dyn_arr_header_t α) :=
  dyn_arr_insert_arr h index [value]

/-- `dyn_arr_remove`: single-element `dyn_arr_remove_arr`. -/
def dyn_arr_remove {α : Type} (h : _dyn_arr_header_t α) (index : Nat) :
    Except String (_dyn_arr_header_t α × List α) :=
  dyn_arr_remove_arr h index 1

/-- `dyn_arr_remove_fast`: copy slot `index` to the output, copy the last
element into slot `index`, and shrink the length by one. -/
def dyn_arr_remove_fast {α : Type} (h : _dyn_arr_header_t α) (index : Nat) :
    Except String (_dyn_arr_header_t α × α) :=
  if hidx : index < h.data.length then
    .ok ({ h with data :=
            (h.data.set index
              (h.data.get ⟨h.data.length - 1, by omega⟩)).dropLast },
         h.data.get ⟨index, hidx⟩)
  else .error "Index out of bounds"

/-- `dyn_arr_push`: append one element at the end (no index assertion). -/
def dyn_arr_push {α : Type} (h : _dyn_arr_header_t α) (value : α) :
    _dyn_arr_header_t α :=
  let h1 := _dyn_arr_ensure_capacity h 1
  { h1 with data := h1.data ++ [value] }

/-- `dyn_arr_pop_arr`: `core_assert(count <= dyn_arr_length(*dyn_arr))`,
then remove `count` elements at index `length - count`. -/
def dyn_arr_pop_arr {α : Type} (h : _dyn_arr_header_t α) (count : Nat) :
    Except String (_dyn_arr_header_t α × List α) :=
  if count ≤ dyn_arr_length h then
    dyn_arr_remove_arr h (dyn_arr_length h - count) count
  else .error "Assertion Failed: count <= dyn_arr_length(*dyn_arr)"

/-- The arena state invariant of the spec:
`0 <= last_position <= position <= capacity` (the lower bound is inherent in
`Nat`). -/
def arena_invariant (a : arena_t) : Prop :=
  a.last_position ≤ a.position ∧ a.position ≤ a.capacity

instance arena_invariant_decidable (a : arena_t) : Decidable (arena_invariant a) :=
  inferInstanceAs (Decidable (_ ∧ _))

/-- The bit trick of `_align_up`: masking with `align - 1` is reduction
modulo `align` when `align` is a power of two. -/
theorem align_mask_eq_mod (value k : Nat) : value &&& (2 ^ k - 1) = value % 2 ^ k :=
  Nat.and_pow_two_sub_one_eq_mod value k

/-- A power of two passes the `_is_power_of_two` assertion of `_align_up`. -/
theorem pow_two_passes_assert (k : Nat) : _is_power_of_two (2 ^ k) = true := by
  simp [_is_power_of_two, align_mask_eq_mod]

/-- `_align_up` never moves the value down. -/
theorem align_up_ge (value align : Nat) : value ≤ _align_up value align := by
  unfold _align_up
  by_cases h : value &&& (align - 1) ≠ 0 <;> simp [h]

/-- `_align_up` lands on a multiple of a power-of-two alignment. -/
theorem align_up_mod (value k : Nat) : _align_up value (2 ^ k) % 2 ^ k = 0 := by
  unfold _align_up
  rw [align_mask_eq_mod]
  by_cases h : value % 2 ^ k = 0
  · simp [h]
  · simp only [h, if_pos, ne_eq, not_false_iff]
    have hpos : 0 < 2 ^ k := Nat.pos_pow_of_pos k (by omega)
    have hlt : value % 2 ^ k < 2 ^ k := Nat.mod_lt value hpos
    have hdm := Nat.div_add_mod value (2 ^ k)
    have hval : value + (2 ^ k - value % 2 ^ k) = 2 ^ k * (value / 2 ^ k + 1) := by
      rw [Nat.mul_add, Nat.mul_one]
      omega
    rw [hval, Nat.mul_mod_right]

/-- `_align_up` fixes values that are already aligned. -/
theorem align_up_of_aligned (value k : Nat) (h : value % 2 ^ k = 0) :
    _align_up value (2 ^ k) = value := by
  unfold _align_up
  rw [align_mask_eq_mod]
  simp [h]

/-- Unfolding equation of `arena_push_aligned`, with its `let` bindings
inlined. -/
theorem arena_push_aligned_eq (a : arena_t) (size align : Nat) :
    arena_push_aligned a size align =
      if _align_up (a.memory + a.position) align - a.memory + size > a.capacity
      then (a, none)
      else
        ({ a with
            last_position := _align_up (a.memory + a.position) align - a.memory,
            position := _align_up (a.memory + a.position) align - a.memory + size },
         some (a.memory + (_align_up (a.memory + a.position) align - a.memory))) :=
  rfl

/-- Claim C2: for every arena state and every sequence of
`arena_push` / `arena_push_aligned` calls performed between
`arena_scope_begin` and the matching `arena_scope_end`, after
`arena_scope_end` the arena's `position` and `last_position` exactly equal
their values at the moment of `arena_scope_begin`, regardless of how many
bytes were pushed in between. -/
theorem claim_C2 (a : arena_t) (ops : List (Nat × Nat)) :
    (arena_scope_end (arena_scope_begin a) (arena_push_seq a ops)).position
      = a.position ∧
    (arena_scope_end (arena_scope_begin a) (arena_push_seq a ops)).last_position
      = a.last_position :=
  ⟨rfl, rfl⟩

/-- Claim C3: for every arena, every requested size, and every power-of-two
align, when `arena_push_aligned` succeeds the address of the returned
pointer is a multiple of `align`, and the arena's `position` after the call
is at least the pre-call `position` plus `size`. -/
theorem claim_C3 (a : arena_t) (size align k p : Nat) (hk : align = 2 ^ k)
    (hs : (arena_push_aligned a size align).2 = some p) :
    p % align = 0 ∧
    a.position + size ≤ (arena_push_aligned a size align).1.position := by
  subst hk
  have hge : a.memory + a.position ≤ _align_up (a.memory + a.position) (2 ^ k) :=
    align_up_ge _ _
  have hmod := align_up_mod (a.memory + a.position) k
  rw [arena_push_aligned_eq] at hs ⊢
  by_cases hcap :
      _align_up (a.memory + a.position) (2 ^ k) - a.memory + size > a.capacity
  · rw [if_pos hcap] at hs
    exact absurd hs (by simp)
  · rw [if_neg hcap] at hs ⊢
    have hp : p = a.memory + (_align_up (a.memory + a.position) (2 ^ k) - a.memory) :=
      (Option.some.inj hs).symm
    refine ⟨?_, ?_⟩
    · have hpe : p = _align_up (a.memory + a.position) (2 ^ k) := by omega
      rw [hpe]
      exact hmod
    · show a.position + size ≤
        _align_up (a.memory + a.position) (2 ^ k) - a.memory + size
      omega

/-- Witness for C3 at a concrete arena and a 4-byte alignment. -/
theorem claim_C3_witness :
    (4 : Nat) = 2 ^ 2 ∧
    (arena_push_aligned ⟨1024, 64, 3, 3⟩ 5 4).2 = some 1028 ∧
    (1028 % 4 = 0 ∧
      (3 : Nat) + 5 ≤ (arena_push_aligned ⟨1024, 64, 3, 3⟩ 5 4).1.position) :=
  ⟨by decide, by decide, claim_C3 ⟨1024, 64, 3, 3⟩ 5 4 2 1028 (by decide) (by decide)⟩

/-- Claim C5: `arena_push_aligned` returns `NULL` exactly when the aligned
offset plus the requested size exceeds the arena's capacity; in that case
the arena state is untouched, and the capacity failure does not trip the
(power-of-two) assertion: it is reported by return value only. -/
theorem claim_C5 (a : arena_t) (size align k : Nat) (hk : align = 2 ^ k) :
    _is_power_of_two align = true ∧
    ((arena_push_aligned a size align).2 = none ↔
      _align_up (a.memory + a.position) align - a.memory + size > a.capacity) ∧
    ((arena_push_aligned a size align).2 = none →
      (arena_push_aligned a size align).1 = a) := by
  subst hk
  refine ⟨pow_two_passes_assert k, ?_, ?_⟩ <;>
    rw [arena_push_aligned_eq] <;>
    by_cases hcap :
      _align_up (a.memory + a.position) (2 ^ k) - a.memory + size > a.capacity
  · rw [if_pos hcap]
    simpa using hcap
  · rw [if_neg hcap]
    simpa using hcap
  · rw [if_pos hcap]
    intro _
    rfl
  · rw [if_neg hcap]
    intro h
    exact absurd h (by simp)

/-- Witness for C5: a push that overruns a concrete arena's capacity
returns `NULL` and leaves the arena untouched. -/
theorem claim_C5_witness :
    (8 : Nat) = 2 ^ 3 ∧
    (arena_push_aligned ⟨0, 16, 10, 10⟩ 20 8).2 = none ∧
    (arena_push_aligned ⟨0, 16, 10, 10⟩ 20 8).1 = ⟨0, 16, 10, 10⟩ :=
  ⟨by decide,
   (claim_C5 ⟨0, 16, 10, 10⟩ 20 8 3 (by decide)).2.1.mpr (by decide),
   (claim_C5 ⟨0, 16, 10, 10⟩ 20 8 3 (by decide)).2.2
     ((claim_C5 ⟨0, 16, 10, 10⟩ 20 8 3 (by decide)).2.1.mpr (by decide))⟩

/-- Counterexample to C4 as stated: the arena `{memory := 0, capacity := 2,
position := 1, last_position := 1}` has `position ≤ capacity`, yet pushing
exactly `capacity - position = 1` byte fails, because `arena_push` first
rounds `memory + position = 1` up to the default 8-byte alignment, and the
padded offset 8 plus 1 exceeds the capacity. -/
theorem claim_C4_counterexample :
    (arena_t.mk 0 2 1 1).position ≤ (arena_t.mk 0 2 1 1).capacity ∧
    (arena_push (arena_t.mk 0 2 1 1)
      ((arena_t.mk 0 2 1 1).capacity - (arena_t.mk 0 2 1 1).position)).2 = none := by
  decide

/-- Claim C4, amended: for every arena with `position ≤ capacity` whose next
allocation address `memory + position` is already aligned to the default
`sizeof(void*)` alignment, a push of `capacity - position + 1` bytes fails,
while a push of exactly `capacity - position` bytes succeeds and leaves
`position = capacity`. -/
theorem claim_C4 (a : arena_t) (hpc : a.position ≤ a.capacity)
    (hal : (a.memory + a.position) % 8 = 0) :
    (arena_push a (a.capacity - a.position + 1)).2 = none ∧
    (arena_push a (a.capacity - a.position)).2 ≠ none ∧
    (arena_push a (a.capacity - a.position)).1.position = a.capacity := by
  have h8 : sizeof_void_ptr = 2 ^ 3 := by decide
  have hfix : _align_up (a.memory + a.position) sizeof_void_ptr
      = a.memory + a.position := by
    rw [h8]
    exact align_up_of_aligned _ 3 hal
  unfold arena_push
  simp only [arena_push_aligned_eq, hfix]
  have hoff : a.memory + a.position - a.memory = a.position := by omega
  rw [hoff]
  refine ⟨?_, ?_, ?_⟩
  · rw [if_pos (by omega)]
  · rw [if_neg (by omega)]
    simp
  · rw [if_neg (by omega)]
    show a.position + (a.capacity - a.position) = a.capacity
    omega

/-- Witness for the amended C4 at a concrete aligned arena. -/
theorem claim_C4_witness :
    (8 : Nat) ≤ 16 ∧ ((0 : Nat) + 8) % 8 = 0 ∧
    ((arena_push ⟨0, 16, 8, 8⟩ (16 - 8 + 1)).2 = none ∧
     (arena_push ⟨0, 16, 8, 8⟩ (16 - 8)).2 ≠ none ∧
     (arena_push ⟨0, 16, 8, 8⟩ (16 - 8)).1.position = 16) :=
  ⟨by decide, by decide, claim_C4 ⟨0, 16, 8, 8⟩ (by decide) (by decide)⟩

/-- `arena_push_aligned` never changes the capacity. -/
theorem arena_push_aligned_capacity (a : arena_t) (size align : Nat) :
    (arena_push_aligned a size align).1.capacity = a.capacity := by
  rw [arena_push_aligned_eq]
  split_ifs <;> rfl

/-- A sequence of pushes never changes the capacity. -/
theorem arena_push_seq_capacity (ops : List (Nat × Nat)) (a : arena_t) :
    (arena_push_seq a ops).capacity = a.capacity := by
  induction ops generalizing a with
  | nil => rfl
  | cons op ops ih =>
      show (arena_push_seq (arena_push_aligned a op.1 op.2).1 ops).capacity
        = a.capacity
      rw [ih, arena_push_aligned_capacity]

/-- `arena_push_aligned` preserves the arena invariant (on failure the state
is untouched; on success the new offsets are within capacity by the guard). -/
theorem arena_push_aligned_invariant (a : arena_t) (size align : Nat)
    (h : arena_invariant a) :
    arena_invariant (arena_push_aligned a size align).1 := by
  rw [arena_push_aligned_eq]
  by_cases hcap :
      _align_up (a.memory + a.position) align - a.memory + size > a.capacity
  · rw [if_pos hcap]
    exact h
  · rw [if_neg hcap]
    constructor
    · show _align_up (a.memory + a.position) align - a.memory ≤
        _align_up (a.memory + a.position) align - a.memory + size
      omega
    · show _align_up (a.memory + a.position) align - a.memory + size ≤ a.capacity
      omega

/-- Claim C9: every arena operation — `arena_create`, `arena_push`,
`arena_push_aligned`, `arena_reset`, `arena_scope_begin`/`arena_scope_end`
used in LIFO order, and the allocator adapter's allocate, reallocate and
deallocate — preserves the invariant
`0 <= last_position <= position <= capacity` (creation and reset establish
it provided the capacity covers the embedded header, without which those
operations are already undefined in the source). -/
theorem claim_C9 :
    (∀ memory capacity, sizeof_arena_t ≤ capacity →
        arena_invariant (arena_create memory capacity)) ∧
    (∀ (a : arena_t) size align, arena_invariant a →
        arena_invariant (arena_push_aligned a size align).1) ∧
    (∀ (a : arena_t) size, arena_invariant a →
        arena_invariant (arena_push a size).1) ∧
    (∀ a : arena_t, sizeof_arena_t ≤ a.capacity →
        arena_invariant (arena_reset a)) ∧
    (∀ (a : arena_t) ops, arena_invariant a →
        arena_invariant
          (arena_scope_end (arena_scope_begin a) (arena_push_seq a ops))) ∧
    (∀ (a : arena_t) size, arena_invariant a →
        arena_invariant (_arena_alloc a size).1) ∧
    (∀ (mem : Store) (a : arena_t) ptr old_size new_size, arena_invariant a →
        arena_invariant (_arena_realloc mem a ptr old_size new_size).2.1) ∧
    (∀ a : arena_t, arena_invariant a → arena_invariant (_arena_free a)) := by
  refine ⟨?_, ?_, ?_, ?_, ?_, ?_, ?_, ?_⟩
  · intro memory capacity h
    exact ⟨Nat.le_refl _, h⟩
  · exact arena_push_aligned_invariant
  · intro a size h
    exact arena_push_aligned_invariant a size sizeof_void_ptr h
  · intro a h
    exact ⟨Nat.le_refl _, h⟩
  · intro a ops h
    refine ⟨h.1, ?_⟩
    show a.position ≤ (arena_push_seq a ops).capacity
    rw [arena_push_seq_capacity]
    exact h.2
  · intro a size h
    exact arena_push_aligned_invariant a size sizeof_void_ptr h
  · intro mem a ptr old_size new_size h
    unfold _arena_realloc
    by_cases hsz : old_size ≥ new_size
    · rw [if_pos hsz]
      exact h
    · rw [if_neg hsz]
      have h1 : arena_invariant (if a.memory + a.last_position = ptr
          then { a with position := a.last_position } else a) := by
        by_cases hp : a.memory + a.last_position = ptr
        · rw [if_pos hp]
          exact ⟨Nat.le_refl _, Nat.le_trans h.1 h.2⟩
        · rw [if_neg hp]
          exact h
      rcases hpush : arena_push (if a.memory + a.last_position = ptr
          then { a with position := a.last_position } else a) new_size with ⟨a2, opt⟩
      have h2 : arena_invariant a2 := by
        have := arena_push_aligned_invariant
          (if a.memory + a.last_position = ptr
            then { a with position := a.last_position } else a)
          new_size sizeof_void_ptr h1
        rw [show arena_push_aligned (if a.memory + a.last_position = ptr
            then { a with position := a.last_position } else a)
            new_size sizeof_void_ptr = (a2, opt) from hpush] at this
        exact this
      cases opt <;> simp [hpush] <;> exact h2
  · intro a h
    exact h

/-- Witness for C9: each conjunct applied at a concrete arena state. -/
theorem claim_C9_witness :
    (sizeof_arena_t ≤ 128 ∧ arena_invariant (arena_create 0 128)) ∧
    (arena_invariant (arena_t.mk 0 128 80 64) ∧
      arena_invariant (arena_push_aligned ⟨0, 128, 80, 64⟩ 8 8).1 ∧
      arena_invariant (arena_push ⟨0, 128, 80, 64⟩ 8).1 ∧
      arena_invariant (arena_reset ⟨0, 128, 80, 64⟩) ∧
      arena_invariant (arena_scope_end (arena_scope_begin ⟨0, 128, 80, 64⟩)
        (arena_push_seq ⟨0, 128, 80, 64⟩ [(8, 8)])) ∧
      arena_invariant (_arena_alloc ⟨0, 128, 80, 64⟩ 8).1 ∧
      arena_invariant (_arena_realloc (fun i => i) ⟨0, 128, 80, 64⟩ 64 8 16).2.1 ∧
      arena_invariant (_arena_free ⟨0, 128, 80, 64⟩)) :=
  ⟨⟨by decide, claim_C9.1 0 128 (by decide)⟩,
   by decide,
   claim_C9.2.1 ⟨0, 128, 80, 64⟩ 8 8 (by decide),
   claim_C9.2.2.1 ⟨0, 128, 80, 64⟩ 8 (by decide),
   claim_C9.2.2.2.1 ⟨0, 128, 80, 64⟩ (by decide),
   claim_C9.2.2.2.2.1 ⟨0, 128, 80, 64⟩ [(8, 8)] (by decide),
   claim_C9.2.2.2.2.2.1 ⟨0, 128, 80, 64⟩ 8 (by decide),
   claim_C9.2.2.2.2.2.2.1 (fun i => i) ⟨0, 128, 80, 64⟩ 64 8 16 (by decide),
   claim_C9.2.2.2.2.2.2.2 ⟨0, 128, 80, 64⟩ (by decide)⟩

/-- Unfolding equation of `arena_push`: `arena_push_aligned` at the default
`sizeof(void*)` alignment. -/
theorem arena_push_eq (a : arena_t) (size : Nat) :
    arena_push a size =
      if _align_up (a.memory + a.position) sizeof_void_ptr - a.memory + size
          > a.capacity
      then (a, none)
      else
        ({ a with
            last_position :=
              _align_up (a.memory + a.position) sizeof_void_ptr - a.memory,
            position :=
              _align_up (a.memory + a.position) sizeof_void_ptr - a.memory + size },
         some (a.memory +
            (_align_up (a.memory + a.position) sizeof_void_ptr - a.memory))) :=
  arena_push_aligned_eq a size sizeof_void_ptr

/-- Unfolding equation of `_arena_realloc`, with its `let` inlined. -/
theorem _arena_realloc_eq (mem : Store) (a : arena_t) (ptr old_size new_size : Nat) :
    _arena_realloc mem a ptr old_size new_size =
      if old_size ≥ new_size then (mem, a, some ptr)
      else
        match arena_push (if a.memory + a.last_position = ptr
            then { a with position := a.last_position } else a) new_size with
        | (a2, some new_ptr) => (memcpy mem new_ptr ptr old_size, a2, some new_ptr)
        | (a2, none) => (mem, a2, none) :=
  rfl

/-- Reading back a byte that `memcpy` just wrote returns the source byte. -/
theorem memcpy_read_in (mem : Store) (dst src n j : Nat) (h : j < n) :
    memcpy mem dst src n (dst + j) = mem (src + j) := by
  unfold memcpy
  rw [if_pos ⟨Nat.le_add_right _ _, by omega⟩]
  congr 1
  omega

/-- Claim C1: for the arena allocator adapter's `reallocate`:
(1) with `old_size >= new_size` it returns the same pointer and leaves the
arena state and the store unchanged; (2) if `new_size > old_size` and the
pointer is the most recent allocation (`memory + last_position == ptr`,
which for a pointer previously returned by the adapter is aligned to the
default alignment) and there is room, the returned block sits at that same
offset and the total consumed bytes after the call equal
`last_position + new_size`; (3) otherwise (the pointer is not the most
recent allocation, and there is room for the fresh push) a fresh block of
`new_size` bytes is pushed and the first `old_size` bytes of the original
content are copied into it. -/
theorem claim_C1 :
    (∀ (mem : Store) (a : arena_t) (ptr old_size new_size : Nat),
        new_size ≤ old_size →
        _arena_realloc mem a ptr old_size new_size = (mem, a, some ptr)) ∧
    (∀ (mem : Store) (a : arena_t) (old_size new_size : Nat),
        old_size < new_size →
        (a.memory + a.last_position) % sizeof_void_ptr = 0 →
        a.last_position + new_size ≤ a.capacity →
        (_arena_realloc mem a (a.memory + a.last_position) old_size new_size).2.2
            = some (a.memory + a.last_position) ∧
        (_arena_realloc mem a (a.memory + a.last_position) old_size
            new_size).2.1.last_position = a.last_position ∧
        (_arena_realloc mem a (a.memory + a.last_position) old_size
            new_size).2.1.position = a.last_position + new_size) ∧
    (∀ (mem : Store) (a : arena_t) (ptr old_size new_size : Nat),
        old_size < new_size →
        a.memory + a.last_position ≠ ptr →
        _align_up (a.memory + a.position) sizeof_void_ptr - a.memory + new_size
            ≤ a.capacity →
        (_arena_realloc mem a ptr old_size new_size).2.2
            = some (a.memory +
                (_align_up (a.memory + a.position) sizeof_void_ptr - a.memory)) ∧
        (_arena_realloc mem a ptr old_size new_size).2.1.position
            = _align_up (a.memory + a.position) sizeof_void_ptr - a.memory
              + new_size ∧
        (∀ j, j < old_size →
          (_arena_realloc mem a ptr old_size new_size).1
              (a.memory +
                (_align_up (a.memory + a.position) sizeof_void_ptr - a.memory) + j)
            = mem (ptr + j))) := by
  refine ⟨?_, ?_, ?_⟩
  · intro mem a ptr old_size new_size hle
    rw [_arena_realloc_eq, if_pos hle]
  · intro mem a old_size new_size hlt hal hroom
    have hfix : _align_up (a.memory + a.last_position) sizeof_void_ptr
        = a.memory + a.last_position := by
      rw [show sizeof_void_ptr = 2 ^ 3 from rfl]
      exact align_up_of_aligned _ 3 hal
    have hval : _arena_realloc mem a (a.memory + a.last_position) old_size new_size
        = (memcpy mem (a.memory + a.last_position) (a.memory + a.last_position)
             old_size,
           { a with last_position := a.last_position,
                    position := a.last_position + new_size },
           some (a.memory + a.last_position)) := by
      rw [_arena_realloc_eq, if_neg (by omega), if_pos rfl, arena_push_eq]
      dsimp only
      rw [hfix, show a.memory + a.last_position - a.memory = a.last_position
        from by omega]
      rw [if_neg (by omega)]
    rw [hval]
    exact ⟨rfl, rfl, rfl⟩
  · intro mem a ptr old_size new_size hlt hptr hroom
    have hval : _arena_realloc mem a ptr old_size new_size
        = (memcpy mem
             (a.memory +
               (_align_up (a.memory + a.position) sizeof_void_ptr - a.memory))
             ptr old_size,
           { a with
              last_position :=
                _align_up (a.memory + a.position) sizeof_void_ptr - a.memory,
              position :=
                _align_up (a.memory + a.position) sizeof_void_ptr - a.memory
                  + new_size },
           some (a.memory +
             (_align_up (a.memory + a.position) sizeof_void_ptr - a.memory))) := by
      rw [_arena_realloc_eq, if_neg (by omega), if_neg hptr, arena_push_eq]
      rw [if_neg (by omega)]
    rw [hval]
    refine ⟨rfl, rfl, ?_⟩
    intro j hj
    exact memcpy_read_in mem _ ptr old_size j hj

/-- Witness for C1: the three reallocate paths at concrete inputs, with the
copy conclusion of the fresh-block path sampled at byte 3. -/
theorem claim_C1_witness :
    ((8 : Nat) ≤ 16 ∧
      _arena_realloc (fun i => i) ⟨0, 128, 80, 64⟩ 64 16 8
        = (fun i => i, ⟨0, 128, 80, 64⟩, some 64)) ∧
    ((8 : Nat) < 16 ∧
      (_arena_realloc (fun i => i) ⟨0, 128, 80, 64⟩ 64 8 16).2.2 = some 64 ∧
      (_arena_realloc (fun i => i) ⟨0, 128, 80, 64⟩ 64 8 16).2.1.last_position = 64 ∧
      (_arena_realloc (fun i => i) ⟨0, 128, 80, 64⟩ 64 8 16).2.1.position = 80) ∧
    ((8 : Nat) < 16 ∧ (0 : Nat) + 64 ≠ 0 ∧
      (_arena_realloc (fun i => i) ⟨0, 128, 80, 64⟩ 0 8 16).2.2 = some 80 ∧
      (_arena_realloc (fun i => i) ⟨0, 128, 80, 64⟩ 0 8 16).2.1.position = 96 ∧
      (_arena_realloc (fun i => i) ⟨0, 128, 80, 64⟩ 0 8 16).1 83 = 3) :=
  ⟨⟨by decide, claim_C1.1 (fun i => i) ⟨0, 128, 80, 64⟩ 64 16 8 (by decide)⟩,
   ⟨by decide,
    (claim_C1.2.1 (fun i => i) ⟨0, 128, 80, 64⟩ 8 16 (by decide) (by decide)
      (by decide)).1,
    (claim_C1.2.1 (fun i => i) ⟨0, 128, 80, 64⟩ 8 16 (by decide) (by decide)
      (by decide)).2.1,
    (claim_C1.2.1 (fun i => i) ⟨0, 128, 80, 64⟩ 8 16 (by decide) (by decide)
      (by decide)).2.2⟩,
   ⟨by decide, by decide,
    (claim_C1.2.2 (fun i => i) ⟨0, 128, 80, 64⟩ 0 8 16 (by decide) (by decide)
      (by decide)).1,
    (claim_C1.2.2 (fun i => i) ⟨0, 128, 80, 64⟩ 0 8 16 (by decide) (by decide)
      (by decide)).2.1,
    (claim_C1.2.2 (fun i => i) ⟨0, 128, 80, 64⟩ 0 8 16 (by decide) (by decide)
      (by decide)).2.2 3 (by decide)⟩⟩

/-- `_dyn_arr_ensure_capacity` never touches the live elements. -/
theorem _dyn_arr_ensure_capacity_data {α : Type} (h : _dyn_arr_header_t α)
    (length : Nat) : (_dyn_arr_ensure_capacity h length).data = h.data := by
  unfold _dyn_arr_ensure_capacity
  split_ifs <;> rfl

/-- Claim C10: for every dynamic array, of any length, `dyn_arr_pop_arr`
with `count = 0` passes its own `count <= length` guard but then hands
`index = length` to `dyn_arr_remove_arr`, whose `index < length` assertion
fails: popping zero elements always dies with the fatal
`Index out of bounds` contract violation. -/
theorem claim_C10 (α : Type) (h : _dyn_arr_header_t α) :
    dyn_arr_pop_arr h 0 = .error "Index out of bounds" := by
  unfold dyn_arr_pop_arr
  rw [if_pos (Nat.zero_le _)]
  unfold dyn_arr_remove_arr dyn_arr_length
  rw [if_neg (by omega)]

/-- Claim C7, code bug: the claim (and the spec's growth-doubling design)
says `_dyn_arr_ensure_capacity` doubles `capacity` until it covers
`length + extra`, so that 9 pushes starting from capacity 8 end at
capacity 16 — but the source computes the doubled size into the local
`new_capacity` and never stores it into `header->capacity`. Faithfully
embedded: a created array has capacity 8 and length 0; the capacity field
survives every `_dyn_arr_ensure_capacity` call unchanged; after 9 pushes it
still reads 8 while the length is 9, exceeding the stored capacity; and the
doubling loop does compute 16 as the 9th push's reallocation size, which is
then dropped. -/
theorem claim_C7 :
    (∀ (α : Type) (element_size : Nat),
        (dyn_arr_create α element_size).capacity = 8 ∧
        dyn_arr_length (dyn_arr_create α element_size) = 0) ∧
    (∀ (α : Type) (h : _dyn_arr_header_t α) (extra : Nat),
        (_dyn_arr_ensure_capacity h extra).capacity = h.capacity) ∧
    (([0, 0, 0, 0, 0, 0, 0, 0, 0] : List Nat).foldl (fun h v => dyn_arr_push h v)
        (dyn_arr_create Nat 4)).capacity = 8 ∧
    dyn_arr_length (([0, 0, 0, 0, 0, 0, 0, 0, 0] : List Nat).foldl
        (fun h v => dyn_arr_push h v) (dyn_arr_create Nat 4)) = 9 ∧
    (([0, 0, 0, 0, 0, 0, 0, 0, 0] : List Nat).foldl (fun h v => dyn_arr_push h v)
        (dyn_arr_create Nat 4)).capacity
      < dyn_arr_length (([0, 0, 0, 0, 0, 0, 0, 0, 0] : List Nat).foldl
        (fun h v => dyn_arr_push h v) (dyn_arr_create Nat 4)) ∧
    _grow_capacity 8 9 = 16 := by
  refine ⟨fun α es => ⟨rfl, rfl⟩, ?_, rfl, rfl, by decide, ?_⟩
  · intro α h extra
    unfold _dyn_arr_ensure_capacity
    split_ifs <;> rfl
  · rw [_grow_capacity, if_pos (by omega), _grow_capacity, if_neg (by omega)]

/-- Claim C6: for every dynamic array, value `v` and index `i <= length`,
`insert(i, v)` followed by `remove(i, out)` yields `out == v`, restores the
original element sequence, and leaves every other element's relative order
unchanged. -/
theorem claim_C6 (α : Type) (h : _dyn_arr_header_t α) (i : Nat) (v : α)
    (hi : i ≤ h.data.length) :
    ∃ h1 h2, dyn_arr_insert h i v = .ok h1 ∧
      dyn_arr_remove h1 i = .ok (h2, [v]) ∧
      h2.data = h.data := by
  have hA : (h.data.take i).length = i := by
    rw [List.length_take]
    omega
  have hlen : (h.data.take i ++ [v] ++ h.data.drop i).length
      = h.data.length + 1 := by
    rw [List.append_assoc, List.length_append, hA, List.length_append,
        List.length_singleton, List.length_drop]
    omega
  have htake : (h.data.take i ++ [v] ++ h.data.drop i).take i = h.data.take i := by
    rw [List.append_assoc]
    exact List.take_left' hA
  have hdrop : (h.data.take i ++ [v] ++ h.data.drop i).drop (i + 1)
      = h.data.drop i :=
    List.drop_left' (by rw [List.length_append, hA, List.length_singleton])
  have hout : ((h.data.take i ++ [v] ++ h.data.drop i).drop i).take 1 = [v] := by
    rw [List.append_assoc, List.drop_left' hA]
    rfl
  refine ⟨{ _dyn_arr_ensure_capacity h 1 with
              data := h.data.take i ++ [v] ++ h.data.drop i },
          { _dyn_arr_ensure_capacity h 1 with data := h.data }, ?_, ?_, rfl⟩
  · unfold dyn_arr_insert dyn_arr_insert_arr
    rw [if_pos hi]
    simp only [_dyn_arr_ensure_capacity_data]
    rfl
  · unfold dyn_arr_remove dyn_arr_remove_arr
    dsimp only
    rw [if_pos (by rw [hlen]; omega), if_pos (by rw [hlen]; omega)]
    rw [htake, hdrop, hout, List.take_append_drop]

/-- Witness for C6: insert 99 at index 1 of `[10, 20, 30]`, then remove it. -/
theorem claim_C6_witness :
    (1 : Nat) ≤ (⟨4, 8, [10, 20, 30]⟩ : _dyn_arr_header_t Nat).data.length ∧
    ∃ h1 h2, dyn_arr_insert (⟨4, 8, [10, 20, 30]⟩ : _dyn_arr_header_t Nat) 1 99
        = .ok h1 ∧
      dyn_arr_remove h1 1 = .ok (h2, [99]) ∧
      h2.data = (⟨4, 8, [10, 20, 30]⟩ : _dyn_arr_header_t Nat).data :=
  ⟨by decide, claim_C6 Nat ⟨4, 8, [10, 20, 30]⟩ 1 99 (by decide)⟩

/-- Claim C8: `dyn_arr_remove_fast(index, out)` copies the element at
`index` into the output, writes the last element into slot `index`, and
decrements the length by one; concretely, on an array of 4-byte integers,
`push(1), push(2), push(3)` gives contents `[1, 2, 3]`, `insert(1, 99)`
gives `[1, 99, 2, 3]`, and `remove_fast(0, out)` then yields `out == 1`,
contents `[3, 99, 2]`, length 3. -/
theorem claim_C8 :
    (∀ (α : Type) (h : _dyn_arr_header_t α) (index : Nat)
        (hidx : index < h.data.length),
        dyn_arr_remove_fast h index =
          .ok ({ h with data := (h.data.set index
                  (h.data.get ⟨h.data.length - 1, by omega⟩)).dropLast },
               h.data.get ⟨index, hidx⟩) ∧
        dyn_arr_length ({ h with data := (h.data.set index
                  (h.data.get ⟨h.data.length - 1, by omega⟩)).dropLast }
              : _dyn_arr_header_t α)
          = h.data.length - 1) ∧
    ((dyn_arr_push (dyn_arr_push (dyn_arr_push (dyn_arr_create Nat 4) 1) 2) 3).data
        = [1, 2, 3] ∧
     dyn_arr_insert
        (dyn_arr_push (dyn_arr_push (dyn_arr_push (dyn_arr_create Nat 4) 1) 2) 3)
        1 99 = .ok ⟨4, 8, [1, 99, 2, 3]⟩ ∧
     dyn_arr_remove_fast (⟨4, 8, [1, 99, 2, 3]⟩ : _dyn_arr_header_t Nat) 0
        = .ok (⟨4, 8, [3, 99, 2]⟩, 1) ∧
     dyn_arr_length (⟨4, 8, [3, 99, 2]⟩ : _dyn_arr_header_t Nat) = 3) := by
  refine ⟨?_, rfl, rfl, rfl, rfl⟩
  intro α h index hidx
  constructor
  · unfold dyn_arr_remove_fast
    rw [dif_pos hidx]
  · show ((h.data.set index _).dropLast).length = h.data.length - 1
    rw [List.length_dropLast, List.length_set]

/-- Witness for C8's general conjunct: swap-remove at index 0 of `[5, 6]`. -/
theorem claim_C8_witness :
    (0 : Nat) < (⟨4, 8, [5, 6]⟩ : _dyn_arr_header_t Nat).data.length ∧
    (dyn_arr_remove_fast (⟨4, 8, [5, 6]⟩ : _dyn_arr_header_t Nat) 0
        = .ok (⟨4, 8, [6]⟩, 5) ∧
     dyn_arr_length (⟨4, 8, [6]⟩ : _dyn_arr_header_t Nat) = 1) :=
  ⟨by decide, claim_C8.1 Nat ⟨4, 8, [5, 6]⟩ 0 (by decide)⟩

end Hoard
